import Mathlib

/-!
Verification of the TFTP endpoint (server + client) against its
natural-language specification.

Shallow embedding conventions:

* Bytes are `Nat` (each byte of a Rust `&[u8]` satisfies `< 256`; builders
  only ever emit such values, and parser theorems either hold for arbitrary
  naturals or carry explicit bounds).
* Rust `String`s that travel on the wire (filenames, option names/values,
  error messages) are modelled as their UTF-8 byte lists (`List Nat`);
  `String::from_utf8` of the bytes of a `String` is the identity, so the
  conversion is dropped.  Consequently `extended_options`, which in Rust can
  only fail on invalid UTF-8, is total here.
* The Rust `PacketParser { buf, pos }` cursor is represented by its only
  observable, `remaining_bytes = buf[pos..]`: every parser operation takes
  the remaining byte list and returns the parsed value together with the new
  remaining byte list (`self.pos += k` becomes dropping `k` bytes).
* `u16` values are `Nat` with wrap-arounds written `% 2^16` exactly where the
  source uses `overflowing_add`/`wrapping_add`; `usize` subtraction that can
  underflow is modelled with the release-profile two's-complement wrap
  (`+ 2^64 ... % 2^64`).
* Fallible operations return `Option`/`Except`; an operation that can panic
  (`unwrap`, `Vec::remove` on an empty vector) returns `Option` with `none`
  for the panic.
* `Instant`-based timers are modelled by their `start : Option Nat` field;
  operations that read the clock take the current time `now : Nat` as an
  argument.
-/

/-! ## Wire-protocol constants (src/tftp_protocol.rs) -/

def DEFAULT_BLOCKSIZE : Nat := 512
def DEFAULT_WINDOWSIZE : Nat := 1
def MAX_BLOCKSIZE : Nat := 1024
def RETRY_COUNT : Nat := 3
def OPCODE_LEN : Nat := 2
def ACK_LEN : Nat := 4

/-! ## Opcodes, error numbers, transfer modes -/

/-- TFTP opcodes, with their on-the-wire `u16` discriminants. -/
inductive Opcode
  | Read
  | Write
  | Data
  | Ack
  | Error
  | Oack
deriving DecidableEq, Repr

/-- Discriminant of an opcode (`Opcode as u16`). -/
def Opcode.toNat : Opcode → Nat
  | .Read => 1
  | .Write => 2
  | .Data => 3
  | .Ack => 4
  | .Error => 5
  | .Oack => 6

/-- TFTP error numbers (RFC 1350 error codes). -/
inductive ErrorNumber
  | NotDefined
  | FileNotFound
  | AccessViolation
  | DiskFull
  | IllegalOperation
  | UnknownTransferID
  | FileAlreadyExists
  | NoSuchUser
deriving DecidableEq, Repr

/-- Discriminant of an error number (`ErrorNumber as u16`). -/
def ErrorNumber.toNat : ErrorNumber → Nat
  | .NotDefined => 0
  | .FileNotFound => 1
  | .AccessViolation => 2
  | .DiskFull => 3
  | .IllegalOperation => 4
  | .UnknownTransferID => 5
  | .FileAlreadyExists => 6
  | .NoSuchUser => 7

/-- The derived `FromPrimitive` conversion `ErrorNumber::from_u16`. -/
def ErrorNumber.from_u16 : Nat → Option ErrorNumber
  | 0 => some .NotDefined
  | 1 => some .FileNotFound
  | 2 => some .AccessViolation
  | 3 => some .DiskFull
  | 4 => some .IllegalOperation
  | 5 => some .UnknownTransferID
  | 6 => some .FileAlreadyExists
  | 7 => some .NoSuchUser
  | _ => none

/-- An error response: an error number plus an optional message.  Messages
are modelled as UTF-8 byte lists. -/
structure ErrorResponse where
  number : ErrorNumber
  msg : Option (List Nat)
deriving DecidableEq, Repr

/-- The UTF-8 bytes of an ASCII string constant. -/
def strBytes (s : String) : List Nat := s.data.map Char.toNat

/-- The three transfer modes. -/
inductive TransferMode
  | Netascii
  | Octet
  | Mail
deriving DecidableEq, Repr

/-- `TransferMode::to_string`, as bytes. -/
def TransferMode.toBytes : TransferMode → List Nat
  | .Netascii => strBytes "netascii"
  | .Octet => strBytes "octet"
  | .Mail => strBytes "mail"

/-- `TransferMode::from_str`, over byte-list strings. -/
def TransferMode.from_bytes (s : List Nat) : Option TransferMode :=
  if s = strBytes "netascii" then some .Netascii
  else if s = strBytes "octet" then some .Octet
  else if s = strBytes "mail" then some .Mail
  else none

/-! ## Parser primitives (src/tftp_protocol.rs, `PacketParser`) -/

/-- `raw_to_num::<u16>`: big-endian read of two bytes; fails when fewer than
two bytes remain. -/
def raw_to_num16 : List Nat → Option Nat
  | b0 :: b1 :: _ => some (b0 * 256 + b1)
  | _ => none

/-- `parse_opcode`: match a raw `u16` against the opcode discriminants. -/
def parse_opcode (raw : Nat) : Option Opcode :=
  if raw = Opcode.Read.toNat then some .Read
  else if raw = Opcode.Write.toNat then some .Write
  else if raw = Opcode.Data.toNat then some .Data
  else if raw = Opcode.Ack.toNat then some .Ack
  else if raw = Opcode.Error.toNat then some .Error
  else if raw = Opcode.Oack.toNat then some .Oack
  else none

/-- `parse_opcode_raw`: read a big-endian `u16` and match it as an opcode. -/
def parse_opcode_raw (data : List Nat) : Option Opcode :=
  match raw_to_num16 data with
  | some num => parse_opcode num
  | none => none

/-- `PacketParser::opcode`: on success the cursor advances by `OPCODE_LEN`;
on failure it stays put. -/
def Parser.opcode (data : List Nat) : Option Opcode × List Nat :=
  match parse_opcode_raw data with
  | some op => (some op, data.drop OPCODE_LEN)
  | none => (none, data)

/-- `PacketParser::opcode_expect`: parse an opcode (advancing on any parsed
opcode) and compare it with the expected one. -/
def Parser.opcode_expect (data : List Nat) (expected : Opcode) : Bool × List Nat :=
  match Parser.opcode data with
  | (some parsed, rest) => (parsed = expected, rest)
  | (none, rest) => (false, rest)

/-- `PacketParser::number16`: big-endian `u16` read, advancing two bytes. -/
def Parser.number16 (data : List Nat) : Option Nat × List Nat :=
  match data with
  | b0 :: b1 :: rest => (some (b0 * 256 + b1), rest)
  | _ => (none, data)

/-- Scan for the first NUL byte: returns the bytes before it and the bytes
after it, or `none` when no NUL is present. -/
def takeUntilZero : List Nat → Option (List Nat × List Nat)
  | [] => none
  | b :: t =>
    if b = 0 then some ([], t)
    else match takeUntilZero t with
      | some (s, r) => some (b :: s, r)
      | none => none

/-- `PacketParser::string_with_separator`: read a NUL-terminated string,
consuming the terminator; `none` (cursor unmoved) when no NUL remains. -/
def Parser.string_with_separator (data : List Nat) : Option (List Nat) × List Nat :=
  match takeUntilZero data with
  | some (s, rest) => (some s, rest)
  | none => (none, data)

/-- `slice::split` on the NUL byte: `n` separators yield `n + 1` pieces (an
empty slice yields one empty piece, a trailing separator a trailing empty
piece), exactly as in Rust. -/
def splitZero : List Nat → List (List Nat)
  | [] => [[]]
  | b :: t =>
    if b = 0 then [] :: splitZero t
    else match splitZero t with
      | [] => [[b]]
      | h :: r => (b :: h) :: r

/-- `HashMap::insert` on an association list: overwrite an existing key in
place, otherwise append. -/
def insertOpt (m : List (List Nat × List Nat)) (k v : List Nat) : List (List Nat × List Nat) :=
  if m.any (fun e => e.1 = k) then
    m.map (fun e => if e.1 = k then (k, v) else e)
  else
    m ++ [(k, v)]

/-- The `lastkey` folding loop of `PacketParser::extended_options`: fields
alternate between keys and values; a trailing odd field is dropped. -/
def optPairs : List (List Nat) → Option (List Nat) → List (List Nat × List Nat) →
    List (List Nat × List Nat)
  | [], _, acc => acc
  | f :: rest, none, acc => optPairs rest (some f) acc
  | f :: rest, some k, acc => optPairs rest none (insertOpt acc k f)

/-- `PacketParser::extended_options`: split the remaining bytes on NUL and
pair the fields up.  (In Rust this can fail only on invalid UTF-8, which the
byte-list model of strings renders impossible, so it is total here.) -/
def Parser.extended_options (data : List Nat) : List (List Nat × List Nat) :=
  optPairs (splitZero data) none []

/-- The fixed message of the `undef_error` value in `parse_error`. -/
def invalid_errnum_msg : List Nat := strBytes "response error with invalid error number"

/-- `PacketParser::parse_error`: `none` when the opcode is not ERROR;
a fixed `NotDefined` response when the error number is missing or unknown;
otherwise the message is kept only for `NotDefined` (`new_custom`), while
every other known code is returned without its message (`from(err)`). -/
def Parser.parse_error (data : List Nat) : Option ErrorResponse :=
  match Parser.opcode_expect data Opcode.Error with
  | (false, _) => none
  | (true, rest) =>
    match Parser.number16 rest with
    | (none, _) => some ⟨.NotDefined, some invalid_errnum_msg⟩
    | (some err_raw, rest2) =>
      match ErrorNumber.from_u16 err_raw with
      | none => some ⟨.NotDefined, some invalid_errnum_msg⟩
      | some err =>
        let err_str := match Parser.string_with_separator rest2 with
          | (some s, _) => s
          | (none, _) => []
        match err with
        | .NotDefined => some ⟨.NotDefined, some err_str⟩
        | _ => some ⟨err, none⟩

/-! ## Builder (src/tftp_protocol.rs, `PacketBuilder`; composite packets as
assembled by the client and the server connection). -/

/-- `u16::to_be_bytes`. -/
def be16 (n : Nat) : List Nat := [n / 256 % 256, n % 256]

/-- `Opcode::raw`: the two big-endian bytes of the discriminant. -/
def opcodeBytes (op : Opcode) : List Nat := be16 op.toNat

/-- DATA packet bytes: opcode, block number, payload. -/
def dataBytes (blk : Nat) (payload : List Nat) : List Nat :=
  opcodeBytes .Data ++ be16 blk ++ payload

/-- ACK packet bytes: opcode, block number (exactly 4 bytes). -/
def ackBytes (blk : Nat) : List Nat :=
  opcodeBytes .Ack ++ be16 blk

/-- ERROR packet bytes as built by `Connection::send_error`: opcode, error
number, message, NUL. -/
def errorBytes (code : Nat) (msg : List Nat) : List Nat :=
  opcodeBytes .Error ++ be16 code ++ msg ++ [0]

/-- RRQ/WRQ bytes as built by the client's `send_initial_packet`: opcode,
filename, NUL, mode, then for each option a NUL-led `name NUL value`, and a
final NUL. -/
def requestBytes (op : Opcode) (fname : List Nat) (mode : TransferMode)
    (opts : List (List Nat × List Nat)) : List Nat :=
  opcodeBytes op ++ fname ++ [0] ++ mode.toBytes ++
    (opts.map (fun nv => [0] ++ nv.1 ++ [0] ++ nv.2)).flatten ++ [0]

/-- OACK bytes as built by `Connection::handle_extendes_request`: opcode,
then `name NUL value NUL` for each echoed option. -/
def oackBytes (opts : List (List Nat × List Nat)) : List Nat :=
  opcodeBytes .Oack ++ (opts.map (fun nv => nv.1 ++ [0] ++ nv.2 ++ [0])).flatten

/-! ## Ring arithmetic on block numbers -/

/-- The source's `ring_diff` (identical in src/tftp_protocol.rs and
src/protcol.rs): for `a <= b` the absolute difference, otherwise
`(u8::MAX as usize + b + 1) - a`.  The `usize` subtraction can underflow
(when `a > 256 + b`); it is modelled with the release-profile wrap modulo
`2^64`. -/
def ring_diff (a b : Nat) : Nat :=
  if a ≤ b then b - a
  else (255 + b + 1 + 2 ^ 64 - a) % 2 ^ 64

/-- The specification's forward ring distance: `ring_diff(a, b) = (b − a)
mod 2^16` (stated for 16-bit `a`, `b`). -/
def ring_diff_spec16 (a b : Nat) : Nat :=
  (b + 2 ^ 16 - a) % 2 ^ 16

/-! ## Extended-option negotiation (src/tftp_protocol.rs and
src/server/connection.rs) -/

/-- Option-name byte constants `BLKSIZE_STR` and `WINDOW_STR`. -/
def blksizeStrBytes : List Nat := strBytes "blksize"

def windowStrBytes : List Nat := strBytes "windowsize"

/-- `u16::from_str_radix(value, 10)` over a byte-list string: an optional
leading `+` (byte 43), then at least one ASCII digit, value below `2^16`. -/
def u16_from_str_radix10 (s : List Nat) : Option Nat :=
  let t := match s with
    | 43 :: rest => rest
    | _ => s
  if t = [] then none
  else if t.all (fun b => 48 ≤ b ∧ b ≤ 57) then
    let v := t.foldl (fun acc b => acc * 10 + (b - 48)) 0
    if v < 2 ^ 16 then some v else none
  else none

/-- `ExtendedOptions` with its `new` defaults. -/
structure ExtendedOptions where
  blksize : Nat
  windowsize : Nat
deriving DecidableEq, Repr

def ExtendedOptions.new : ExtendedOptions :=
  ⟨DEFAULT_BLOCKSIZE, DEFAULT_WINDOWSIZE⟩

/-- The `for (name, value) in options` loop of `filter_extended_options`,
with the two accumulators `known` and `unknown` made explicit. -/
def filter_extended_options_loop (options : List (List Nat × List Nat))
    (known : ExtendedOptions) (unknown : List (List Nat × List Nat)) :
    Except Unit (ExtendedOptions × List (List Nat × List Nat)) :=
  match options with
  | [] => .ok (known, unknown)
  | nv :: rest =>
    if nv.1 = blksizeStrBytes then
      match u16_from_str_radix10 nv.2 with
      | some x => filter_extended_options_loop rest { known with blksize := x } unknown
      | none => .error ()
    else if nv.1 = windowStrBytes then
      match u16_from_str_radix10 nv.2 with
      | some x => filter_extended_options_loop rest { known with windowsize := x } unknown
      | none => .error ()
    else
      filter_extended_options_loop rest known (unknown ++ [nv])

/-- `filter_extended_options`: fold over the raw option mapping, decoding
`blksize` and `windowsize` as decimal `u16`s (failing the whole call when a
recognized option fails to parse) and collecting unknown options. -/
def filter_extended_options (options : List (List Nat × List Nat)) :
    Except Unit (ExtendedOptions × List (List Nat × List Nat)) :=
  filter_extended_options_loop options ExtendedOptions.new []

/-- The per-connection settings fields that the request handler reads and
writes (`ServerSettings.blocksize` / `.windowsize`; the remaining fields of
the missing `server/defs.rs` do not participate in these claims). -/
structure ServerSettings where
  blocksize : Nat
  windowsize : Nat
deriving DecidableEq, Repr

/-- The option-adoption step of `Connection::parsed_request` (lines 343-356):
on a successfully filtered option map the settings take the decoded values
verbatim; on a filter failure the settings are left unchanged (a warning is
printed). -/
def parsed_request_adopt (settings : ServerSettings)
    (recv_map : List (List Nat × List Nat)) : ServerSettings :=
  match filter_extended_options recv_map with
  | .ok (options, _) => { settings with blocksize := options.blksize, windowsize := options.windowsize }
  | .error _ => settings

/-- Decimal rendering (`usize::to_string`) as bytes. -/
def natDecBytes (n : Nat) : List Nat := (Nat.toDigits 10 n).map Char.toNat

/-- The option list echoed by `Connection::handle_extendes_request`: blocksize
when it differs from the default, then windowsize when it differs from the
default; an OACK is sent exactly when this list is nonempty (its bytes are
`oackBytes` of it). -/
def handle_extendes_request (settings : ServerSettings) : List (List Nat × List Nat) :=
  (if settings.blocksize ≠ DEFAULT_BLOCKSIZE then
    [(blksizeStrBytes, natDecBytes settings.blocksize)] else []) ++
  (if settings.windowsize ≠ DEFAULT_WINDOWSIZE then
    [(windowStrBytes, natDecBytes settings.windowsize)] else [])

/-! ## SEND engine (src/tftp_protocol/send.rs, `SendStateMachine`) -/

/-- The `SendStateMachine` state.  The byte source (`reader`) is replaced by
the flags derived from it; `timeout` is the `OneshotTimer`'s start field and
`retry` the remaining retry count. -/
structure SendStateMachine where
  windowssize : Nat
  blksize : Nat
  bufs : List (List Nat)
  acked : Nat
  new_acked : Bool
  is_reader_end : Bool
  is_end : Bool
  timeout : Option Nat
  retry : Nat
  data_read : Nat
deriving DecidableEq, Repr

/-- The `for _ in 0..diff` loop of `SendStateMachine::ack`: each iteration
sets `new_acked`, removes the queue front (`Vec::remove(0)`, which panics on
an empty vector — modelled as `none`), and increments `acked` with 16-bit
wrap-around. -/
def SendStateMachine.ackLoop : SendStateMachine → Nat → Option SendStateMachine
  | s, 0 => some s
  | s, n + 1 =>
    match s.bufs with
    | [] => none
    | _ :: t =>
      SendStateMachine.ackLoop
        { s with new_acked := true, bufs := t, acked := (s.acked + 1) % 2 ^ 16 } n

/-- `SendStateMachine::ack`: compute `ring_diff(acked, blknum)`; ignore the
ACK when the distance exceeds the window size; otherwise pop that many queue
entries, mark the end when the reader is exhausted and the queue drained, and
reset the resend timer and retry counter when `new_acked` is set. -/
def SendStateMachine.ack (s : SendStateMachine) (blknum : Nat) : Option SendStateMachine :=
  let diff := ring_diff s.acked blknum
  if diff > s.windowssize then some s
  else
    match s.ackLoop diff with
    | none => none
    | some s1 =>
      let s2 := if s1.is_reader_end ∧ s1.bufs = [] then { s1 with is_end := true } else s1
      if s2.new_acked then some { s2 with timeout := none, retry := RETRY_COUNT }
      else some s2

/-- `SendStateMachine::ack_packet`: require exactly `ACK_LEN` bytes and the
ACK opcode, then read the block number and delegate to `ack`. -/
def SendStateMachine.ack_packet (s : SendStateMachine) (frame : List Nat) :
    Option SendStateMachine :=
  let e := Parser.opcode_expect frame Opcode.Ack
  if frame.length ≠ ACK_LEN ∨ e.1 = false then some s
  else
    match (Parser.number16 e.2).1 with
    | some num => s.ack num
    | none => some s

/-! ## RECV engine (src/tftp_protocol/recv.rs, `RecvController`) -/

/-- The `RecvController` state relevant to frame admission: negotiated sizes,
the last acknowledged block number, and the window slots. -/
structure RecvController where
  windowssize : Nat
  blksize : Nat
  acked : Nat
  window_buf : List (Option (List Nat))
deriving DecidableEq, Repr

/-- One received datagram processed by the body of
`RecvController::fill_window` (lines 72-96): empty buffers, non-DATA opcodes,
truncated headers, out-of-window block numbers (`diff == 0` or
`diff > windowsize`) and already-filled slots are all skipped with the state
unchanged; otherwise slot `diff - 1` receives the payload. -/
def RecvController.fill_window_step (s : RecvController) (buf : List Nat) : RecvController :=
  if buf = [] then s
  else
    let e := Parser.opcode_expect buf Opcode.Data
    if e.1 = false then s
    else
      match Parser.number16 e.2 with
      | (none, _) => s
      | (some blocknr, rest) =>
        let diff := ring_diff s.acked blocknr
        if diff > s.windowssize ∨ diff = 0 then s
        else
          let idx := diff - 1
          if (s.window_buf.getD idx none).isSome then s
          else { s with window_buf := s.window_buf.set idx (some rest) }

/-! ## Deprecated RECV engine (src/tftp_protocol.rs, `RecvStateMachine`) -/

/-- The `RecvStateMachine` state; the two `Instant`-based timers are carried
as their start times. -/
structure RecvStateMachine where
  windowssize : Nat
  blksize : Nat
  bufs : List (Option (List Nat))
  acked : Nat
  is_end : Bool
  is_timeout : Bool
  timeout : Option Nat
  lost_ack_timeout : Option Nat
deriving DecidableEq, Repr

/-- `RecvStateMachine::insert_frame`: the entry `self.timeout.is_timeout()`
starts the overall timer when unstarted; then the opcode is compared against
DATA and the block number is read with `.unwrap()` — a frame shorter than 4
bytes makes that `unwrap` panic (`none`) *before* the `is_data` test.
Accepted frames fill slot `diff - 1`, clear the lost-ACK timer and restart
the overall timer. -/
def RecvStateMachine.insert_frame (now : Nat) (s : RecvStateMachine) (data : List Nat) :
    Option RecvStateMachine :=
  let timeout1 : Option Nat := match s.timeout with
    | none => some now
    | some x => some x
  let e := Parser.opcode_expect data Opcode.Data
  match Parser.number16 e.2 with
  | (none, _) => none
  | (some blocknr, rest) =>
    if e.1 = false then some { s with timeout := timeout1 }
    else
      let diff := ring_diff s.acked blocknr
      if diff > s.windowssize ∨ diff = 0 then some { s with timeout := timeout1 }
      else
        let idx := diff - 1
        some { s with
          bufs := s.bufs.set idx (some rest),
          lost_ack_timeout := none,
          timeout := some now }

/-! ## Paths and the traversal check (src/server/connection.rs,
`Connection::get_file_path`) -/

/-- A filesystem path: an absolute-root marker plus its named components
(`..` is carried literally as a component, exactly as `Path::join` does). -/
structure TPath where
  absolute : Bool
  components : List String
deriving DecidableEq, Repr

/-- `Path::join`: an absolute right-hand side replaces the base entirely;
otherwise the components are appended. -/
def joinPath (base req : TPath) : TPath :=
  if req.absolute then req
  else ⟨base.absolute, base.components ++ req.components⟩

/-- `Path::starts_with`: component-wise prefix comparison (no normalization
of `..` or `.`). -/
def pathStartsWith (p base : TPath) : Bool :=
  (p.absolute == base.absolute) && base.components.isPrefixOf p.components

/-- `Connection::get_file_path`: join the request path onto the root
directory and reject with `FileNotFound` unless the result starts with the
root directory. -/
def get_file_path (root_dir : TPath) (path_relative : TPath) : Except ErrorNumber TPath :=
  let full_path := joinPath root_dir path_relative
  if !(pathStartsWith full_path root_dir) then .error .FileNotFound
  else .ok full_path

/-- Resolution of `.` and `..` components (lexical normalization).  This is
the claim's notion of the directory a path actually designates; the source
never performs it. -/
def normalizeComponents (cs : List String) : List String :=
  cs.foldl (fun acc c => if c = ".." then acc.dropLast else if c = "." then acc else acc ++ [c]) []

/-- The claim's "path outside root_dir": after resolving `..`/`.`, the path
no longer lies under the root directory. -/
def escapesRoot (root full : TPath) : Bool :=
  !((root.absolute == full.absolute) &&
    root.components.isPrefixOf (normalizeComponents full.components))

/-! ## File-lock table (src/server/connection.rs, `check_lock_file`,
`unlock_file`, and the cleanup epilogue of `Connection::run`) -/

/-- A file-lock mode: shared read with a holder count, or exclusive write. -/
inductive FileLockMode
  | Read : Nat → FileLockMode
  | Write
deriving DecidableEq, Repr

/-- The process-wide lock table (the `HashMap<PathBuf, FileLockMode>` behind
the `FileLockMap` mutex), as an association list with unique keys. -/
abbrev FileLockSet : Type := List (TPath × FileLockMode)

/-- `HashMap::get` on the lock table. -/
def lockGet (m : FileLockSet) (p : TPath) : Option FileLockMode :=
  match (List.find? (fun e => e.1 = p) m) with
  | some e => some e.2
  | none => none

/-- `HashMap` value update in place. -/
def lockUpdate (m : FileLockSet) (p : TPath) (v : FileLockMode) : FileLockSet :=
  List.map (fun e => if e.1 = p then (p, v) else e) m

/-- `HashMap::remove`. -/
def lockRemove (m : FileLockSet) (p : TPath) : FileLockSet :=
  List.filter (fun e => ¬ e.1 = p) m

/-- `HashMap::insert` of an absent key. -/
def lockInsert (m : FileLockSet) (p : TPath) (v : FileLockMode) : FileLockSet :=
  m ++ [(p, v)]

/-- `Connection::check_lock_file`, acting on the lock table and the session's
`locked` field: an existing read entry is compatible with a read request (the
count is bumped and `locked` records the path); any other existing entry
conflicts; an absent entry is inserted — and on that branch the source does
*not* record the path in `locked`. -/
def check_lock_file (m : FileLockSet) (locked : Option TPath) (path : TPath)
    (mode : FileLockMode) : Bool × FileLockSet × Option TPath :=
  match lockGet m path with
  | some (FileLockMode.Read curr) =>
    match mode with
    | FileLockMode.Read _ => (true, lockUpdate m path (.Read (curr + 1)), some path)
    | FileLockMode.Write => (false, m, locked)
  | some FileLockMode.Write => (false, m, locked)
  | none => (true, lockInsert m path mode, locked)

/-- `Connection::unlock_file`: decrement a read count (removing the entry at
zero), remove a write entry, warn (no change) when the path is absent. -/
def unlock_file (m : FileLockSet) (path : TPath) : FileLockSet :=
  match lockGet m path with
  | some (FileLockMode.Read x) =>
    if x - 1 = 0 then lockRemove m path else lockUpdate m path (.Read (x - 1))
  | some FileLockMode.Write => lockRemove m path
  | none => m

/-- The lock-cleanup epilogue of `Connection::run` (lines 422-425): the held
path is unlocked only when the `locked` field records one. -/
def run_exit_cleanup (locked : Option TPath) (m : FileLockSet) : FileLockSet :=
  match locked with
  | some p => unlock_file m p
  | none => m

/-! ## Whole-packet build/parse round trip (claim C9) -/

/-- The packet kinds covered by the round-trip claim. -/
inductive Packet
  | data : Nat → List Nat → Packet
  | ack : Nat → Packet
  | error : ErrorNumber → Option (List Nat) → Packet
  | request : Opcode → List Nat → TransferMode → List (List Nat × List Nat) → Packet
  | oack : List (List Nat × List Nat) → Packet
deriving DecidableEq, Repr

/-- Message substituted by `Connection::send_error` when an `ErrorResponse`
carries no message. -/
def unknownMsgBytes : List Nat := strBytes "unknown"

/-- The bytes the repository's builders produce for each packet kind. -/
def buildPacket : Packet → List Nat
  | .data blk payload => dataBytes blk payload
  | .ack blk => ackBytes blk
  | .error e msg => errorBytes e.toNat (msg.getD unknownMsgBytes)
  | .request op fname mode opts => requestBytes op fname mode opts
  | .oack opts => oackBytes opts

/-- Packet parsing, dispatching on the opcode exactly as the receiving code
paths do: DATA/ACK via `number16` (ACKs must be exactly 4 bytes, as in
`ack_packet`), ERROR via `parse_error`, RRQ/WRQ via the field sequence of
`parsed_request`, OACK via `extended_options`. -/
def parsePacket (bytes : List Nat) : Option Packet :=
  match Parser.opcode bytes with
  | (none, _) => none
  | (some op, rest) =>
    match op with
    | .Data =>
      match Parser.number16 rest with
      | (some blk, rest2) => some (.data blk rest2)
      | (none, _) => none
    | .Ack =>
      if bytes.length = ACK_LEN then
        match Parser.number16 rest with
        | (some blk, _) => some (.ack blk)
        | (none, _) => none
      else none
    | .Error =>
      match Parser.parse_error bytes with
      | some er => some (.error er.number er.msg)
      | none => none
    | .Oack => some (.oack (Parser.extended_options rest))
    | _ =>
      match Parser.string_with_separator rest with
      | (none, _) => none
      | (some fname, rest2) =>
        match Parser.string_with_separator rest2 with
        | (none, _) => none
        | (some modeBs, rest3) =>
          match TransferMode.from_bytes modeBs with
          | none => none
          | some mode => some (.request op fname mode (Parser.extended_options rest3))

/-- Well-formedness for the round-trip statement: 16-bit block numbers,
NUL-free strings, request opcodes for requests, distinct option names, and
for ERROR the two shapes the codec can reproduce. -/
def Packet.wf : Packet → Prop
  | .data blk _ => blk < 2 ^ 16
  | .ack blk => blk < 2 ^ 16
  | .error e msg =>
    match msg with
    | some m => e = .NotDefined ∧ 0 ∉ m
    | none => e ≠ .NotDefined
  | .request op fname _ opts =>
    (op = .Read ∨ op = .Write) ∧ 0 ∉ fname ∧
      (∀ nv ∈ opts, 0 ∉ nv.1 ∧ 0 ∉ nv.2) ∧ (opts.map Prod.fst).Nodup
  | .oack opts =>
    (∀ nv ∈ opts, 0 ∉ nv.1 ∧ 0 ∉ nv.2) ∧ (opts.map Prod.fst).Nodup

instance : DecidablePred Packet.wf := by
  intro P
  cases P with
  | data blk payload => exact inferInstanceAs (Decidable (blk < 2 ^ 16))
  | ack blk => exact inferInstanceAs (Decidable (blk < 2 ^ 16))
  | error e msg =>
    cases msg with
    | some m => exact inferInstanceAs (Decidable (e = .NotDefined ∧ 0 ∉ m))
    | none => exact inferInstanceAs (Decidable (e ≠ .NotDefined))
  | request op fname mode opts =>
    exact inferInstanceAs (Decidable ((op = .Read ∨ op = .Write) ∧ 0 ∉ fname ∧
      (∀ nv ∈ opts, 0 ∉ nv.1 ∧ 0 ∉ nv.2) ∧ (opts.map Prod.fst).Nodup))
  | oack opts =>
    exact inferInstanceAs (Decidable ((∀ nv ∈ opts, 0 ∉ nv.1 ∧ 0 ∉ nv.2) ∧
      (opts.map Prod.fst).Nodup))

/-! ## Helper lemmas about the parser primitives -/

theorem takeUntilZero_append (s r : List Nat) (h : 0 ∉ s) :
    takeUntilZero (s ++ 0 :: r) = some (s, r) := by
  induction s with
  | nil => simp [takeUntilZero]
  | cons b t ih =>
    have hb : ¬ b = 0 := fun e => h (by simp [e])
    have ht : 0 ∉ t := fun m => h (List.mem_cons_of_mem _ m)
    simp [takeUntilZero, hb, ih ht]

theorem swsep_append (s r : List Nat) (h : 0 ∉ s) :
    Parser.string_with_separator (s ++ 0 :: r) = (some s, r) := by
  simp [Parser.string_with_separator, takeUntilZero_append s r h]

theorem splitZero_append (s r : List Nat) (h : 0 ∉ s) :
    splitZero (s ++ 0 :: r) = s :: splitZero r := by
  induction s with
  | nil => simp [splitZero]
  | cons b t ih =>
    have hb : ¬ b = 0 := fun e => h (by simp [e])
    have ht : 0 ∉ t := fun m => h (List.mem_cons_of_mem _ m)
    simp only [List.cons_append, splitZero, hb, if_false, List.append_eq]
    rw [ih ht]

theorem opcode_consume (op : Opcode) (rest : List Nat) :
    Parser.opcode (opcodeBytes op ++ rest) = (some op, rest) := by
  cases op <;>
    simp [Parser.opcode, opcodeBytes, be16, Opcode.toNat, parse_opcode_raw,
      raw_to_num16, parse_opcode, OPCODE_LEN]

theorem opcode_expect_consume (op expected : Opcode) (rest : List Nat) :
    Parser.opcode_expect (opcodeBytes op ++ rest) expected = (decide (op = expected), rest) := by
  simp [Parser.opcode_expect, opcode_consume]

theorem number16_be16 (n : Nat) (rest : List Nat) (h : n < 2 ^ 16) :
    Parser.number16 (be16 n ++ rest) = (some n, rest) := by
  have e : n / 256 % 256 * 256 + n % 256 = n := by omega
  simp [be16, Parser.number16, e]

theorem from_u16_toNat (e : ErrorNumber) : ErrorNumber.from_u16 e.toNat = some e := by
  cases e <;> rfl

theorem mode_from_toBytes (m : TransferMode) : TransferMode.from_bytes m.toBytes = some m := by
  cases m <;> decide

theorem mode_toBytes_no_zero (m : TransferMode) : 0 ∉ m.toBytes := by
  cases m <;> decide

theorem isPrefixOf_append_self {α : Type} [BEq α] [LawfulBEq α] (l t : List α) :
    l.isPrefixOf (l ++ t) = true := by
  induction l with
  | nil => simp [List.isPrefixOf]
  | cons a l ih => simp [List.isPrefixOf, ih]

theorem insertOpt_of_fresh (acc : List (List Nat × List Nat)) (k v : List Nat)
    (h : k ∉ acc.map Prod.fst) : insertOpt acc k v = acc ++ [(k, v)] := by
  unfold insertOpt
  rw [if_neg]
  intro hc
  rcases List.any_eq_true.mp hc with ⟨e, he, heq⟩
  exact h (List.mem_map.mpr ⟨e, he, of_decide_eq_true heq⟩)

theorem optPairs_fields (opts : List (List Nat × List Nat))
    (acc : List (List Nat × List Nat))
    (h : ((acc ++ opts).map Prod.fst).Nodup) :
    optPairs ((opts.map fun nv => [nv.1, nv.2]).flatten ++ [[]]) none acc = acc ++ opts := by
  induction opts generalizing acc with
  | nil => simp [optPairs]
  | cons nv rest ih =>
    have hk : nv.1 ∉ acc.map Prod.fst := by
      intro hmem
      rw [List.map_append, List.nodup_append] at h
      exact h.2.2 hmem (by simp)
    have hrest : (((acc ++ [nv]) ++ rest).map Prod.fst).Nodup := by
      simpa [List.append_assoc] using h
    simp only [List.map_cons, List.flatten_cons, List.cons_append, optPairs,
      List.nil_append]
    rw [insertOpt_of_fresh acc nv.1 nv.2 hk]
    simpa [List.append_assoc] using ih (acc ++ [nv]) hrest

theorem splitZero_blob (opts : List (List Nat × List Nat))
    (h : ∀ nv ∈ opts, 0 ∉ nv.1 ∧ 0 ∉ nv.2) :
    splitZero ((opts.map fun nv => nv.1 ++ [0] ++ nv.2 ++ [0]).flatten)
      = (opts.map fun nv => [nv.1, nv.2]).flatten ++ [[]] := by
  induction opts with
  | nil => simp [splitZero]
  | cons nv rest ih =>
    obtain ⟨h1, h2⟩ := h nv (List.mem_cons_self nv rest)
    have hrest : ∀ e ∈ rest, 0 ∉ e.1 ∧ 0 ∉ e.2 := fun e he => h e (List.mem_cons_of_mem _ he)
    have e1 : (nv.1 ++ [0] ++ nv.2 ++ [0]) ++
        (rest.map fun nv => nv.1 ++ [0] ++ nv.2 ++ [0]).flatten
        = nv.1 ++ 0 :: (nv.2 ++ 0 :: (rest.map fun nv => nv.1 ++ [0] ++ nv.2 ++ [0]).flatten) := by
      simp [List.append_assoc]
    simp only [List.map_cons, List.flatten_cons, e1]
    rw [splitZero_append _ _ h1, splitZero_append _ _ h2, ih hrest]
    simp

theorem extended_options_blob (opts : List (List Nat × List Nat))
    (h : ∀ nv ∈ opts, 0 ∉ nv.1 ∧ 0 ∉ nv.2) (hnodup : (opts.map Prod.fst).Nodup) :
    Parser.extended_options ((opts.map fun nv => nv.1 ++ [0] ++ nv.2 ++ [0]).flatten) = opts := by
  unfold Parser.extended_options
  rw [splitZero_blob opts h]
  simpa using optPairs_fields opts [] (by simpa)

theorem leadBlob_shift (opts : List (List Nat × List Nat)) :
    ((opts.map fun nv => [0] ++ nv.1 ++ [0] ++ nv.2).flatten) ++ [0]
      = 0 :: (opts.map fun nv => nv.1 ++ [0] ++ nv.2 ++ [0]).flatten := by
  induction opts with
  | nil => simp
  | cons nv rest ih =>
    simp only [List.map_cons, List.flatten_cons, List.append_assoc] at ih ⊢
    rw [ih]
    simp

/-! ## Helper lemmas about the SEND engine's ACK loop -/

theorem ackLoop_isSome (n : Nat) (s : SendStateMachine) :
    (s.ackLoop n).isSome ↔ n ≤ s.bufs.length := by
  induction n generalizing s with
  | zero => simp [SendStateMachine.ackLoop]
  | succ k ih =>
    cases hb : s.bufs with
    | nil => simp [SendStateMachine.ackLoop, hb]
    | cons b t =>
      simp only [SendStateMachine.ackLoop, hb, ih, List.length_cons]
      omega

theorem ackLoop_some (n : Nat) (s : SendStateMachine) (hn : n ≤ s.bufs.length)
    (ha : s.acked < 2 ^ 16) :
    s.ackLoop n = some { s with
      bufs := s.bufs.drop n,
      acked := (s.acked + n) % 2 ^ 16,
      new_acked := if n = 0 then s.new_acked else true } := by
  induction n generalizing s with
  | zero =>
    have ha' : s.acked % 65536 = s.acked := Nat.mod_eq_of_lt (by omega)
    simp [SendStateMachine.ackLoop, ha']
  | succ k ih =>
    cases hb : s.bufs with
    | nil => simp [hb] at hn
    | cons b t =>
      have hlen : k ≤ t.length := by
        simp [hb] at hn
        omega
      simp only [SendStateMachine.ackLoop, hb]
      rw [ih { s with new_acked := true, bufs := t, acked := (s.acked + 1) % 2 ^ 16 }
        (by simpa using hlen) (Nat.mod_lt _ (by norm_num))]
      have hacked : ((s.acked + 1) % 2 ^ 16 + k) % 2 ^ 16 = (s.acked + (k + 1)) % 2 ^ 16 := by
        rw [Nat.mod_add_mod]
        congr 1
        omega
      have hnew : (if k = 0 then true else true) = (if k + 1 = 0 then s.new_acked else true) := by
        cases k <;> simp
      simp [hb, hacked, hnew]
      omega

/-! ## Claim theorems -/

/-- C1: the source's `ring_diff` does not compute the forward ring distance
`(b − a) mod 2^16`: its wrap branch is based on `u8::MAX` (255), so at
`a = 1, b = 0` it returns `255` while the 16-bit forward ring distance is
`65535`. -/
theorem ring_diff_uses_u8_wrap_not_u16 :
    ring_diff 1 0 = 255 ∧ ring_diff_spec16 1 0 = 65535 ∧
      ring_diff 1 0 ≠ ring_diff_spec16 1 0 ∧ ring_diff 2 5 = ring_diff_spec16 2 5 := by
  decide

/-- C2: a lone RRQ session that successfully inserts its lock leaves its
entry in the lock table on exit: `check_lock_file`'s insert branch returns
`true` without recording the path in the session's `locked` field, so the
cleanup epilogue of `Connection::run` never calls `unlock_file` and the
table is not empty after the session exits. -/
theorem lone_session_lock_entry_survives_exit :
    check_lock_file [] none ⟨true, ["srv", "file.txt"]⟩ (FileLockMode.Read 1)
      = (true, [(⟨true, ["srv", "file.txt"]⟩, FileLockMode.Read 1)], none) ∧
    run_exit_cleanup none [(⟨true, ["srv", "file.txt"]⟩, FileLockMode.Read 1)]
      = [(⟨true, ["srv", "file.txt"]⟩, FileLockMode.Read 1)] ∧
    [(⟨true, ["srv", "file.txt"]⟩, FileLockMode.Read 1)] ≠ ([] : FileLockSet) := by
  decide

/-- C7: `RecvStateMachine::insert_frame` panics (instead of silently
dropping) on a frame shorter than the 4-byte DATA header — the block number
is read with `.unwrap()` before the opcode test — here shown on the empty
datagram and on a 3-byte fragment; a well-formed 4-byte non-DATA frame, by
contrast, is dropped with only the overall timer started. -/
theorem insert_frame_panics_on_short_frame :
    RecvStateMachine.insert_frame 0 ⟨1, 512, [none], 0, false, false, none, none⟩ [] = none ∧
    RecvStateMachine.insert_frame 0 ⟨1, 512, [none], 0, false, false, none, none⟩ [0, 3, 0] = none ∧
    RecvStateMachine.insert_frame 0 ⟨1, 512, [none], 0, false, false, none, none⟩ [0, 4, 0, 1]
      = some ⟨1, 512, [none], 0, false, false, some 0, none⟩ := by
  decide

/-- C3 counterexample: the filename `../secret` joined onto root `/srv/tftp`
yields `/srv/tftp/../secret`, which escapes the root after normalization,
yet `get_file_path` accepts it (the component-prefix check passes because
`..` is never resolved). -/
theorem dotdot_escape_accepted :
    get_file_path ⟨true, ["srv", "tftp"]⟩ ⟨false, ["..", "secret"]⟩
      = .ok ⟨true, ["srv", "tftp", "..", "secret"]⟩ ∧
    escapesRoot ⟨true, ["srv", "tftp"]⟩ ⟨true, ["srv", "tftp", "..", "secret"]⟩ = true := by
  exact ⟨rfl, by decide⟩

/-- C4 counterexample: a duplicate ACK (distance 0, here ACK(1) against
`acked = 1`) is accepted by the `d ≤ windowsize` test but, with no pending
advance (`new_acked = false`), resets neither the resend timer (still
`some 5`) nor the retry counter (still `1 ≠ RETRY_COUNT`), contradicting the
claim that inside the window the timer and counter are always reset. -/
theorem duplicate_ack_resets_nothing :
    SendStateMachine.ack_packet
        ⟨2, 512, [[0, 3, 0, 2]], 1, false, true, false, some 5, 1, 0⟩ [0, 4, 0, 1]
      = some ⟨2, 512, [[0, 3, 0, 2]], 1, false, true, false, some 5, 1, 0⟩ ∧
    (1 : Nat) ≠ RETRY_COUNT ∧ (some 5 : Option Nat) ≠ none := by
  decide

/-- C10 counterexample: with the source exhausted early (`windowsize = 2`
but only one frame queued), the spurious ACK(2) has ring distance
`2 ≤ windowsize`, so the pop loop runs twice on a one-element queue and the
second `Vec::remove(0)` panics. -/
theorem spurious_ack_past_queue_panics :
    SendStateMachine.ack ⟨2, 512, [[0, 3, 0, 1]], 0, false, true, false, none, 3, 0⟩ 2
      = none := by
  decide

/-- C6 counterexample: a request carrying `blksize = 2000` is adopted and
echoed as `2000`, not clamped into `8‥MAX_BLOCKSIZE` (which would give
`1024`). -/
theorem blksize_not_clamped :
    parsed_request_adopt ⟨512, 1⟩ [(blksizeStrBytes, strBytes "2000")] = ⟨2000, 1⟩ ∧
    handle_extendes_request ⟨2000, 1⟩ = [(blksizeStrBytes, natDecBytes 2000)] ∧
    (2000 : Nat) ≠ min MAX_BLOCKSIZE (max 8 2000) := by
  decide

/-- C8 counterexample: a well-formed ERROR packet with the known code
`FileNotFound` (1) and message `"x"` parses to a response whose message has
been dropped (`none`), not to the decoded message. -/
theorem parse_error_drops_known_code_message :
    Parser.parse_error (errorBytes 1 [120]) = some ⟨.FileNotFound, none⟩ ∧
    (⟨.FileNotFound, none⟩ : ErrorResponse) ≠ ⟨.FileNotFound, some [120]⟩ := by
  decide

/-- C9 counterexample: building the ERROR packet for
`ErrorResponse(FileNotFound, "y")` and parsing it back loses the message, so
parse-after-build is not the identity on ERROR packets with a known
non-NotDefined code and a message. -/
theorem error_packet_roundtrip_fails :
    parsePacket (buildPacket (.error .FileNotFound (some [121])))
      = some (.error .FileNotFound none) ∧
    Packet.error .FileNotFound none ≠ .error .FileNotFound (some [121]) := by
  decide


theorem parse_error_on_errorBytes (code : Nat) (msg : List Nat)
    (hc : code < 2 ^ 16) (hm : 0 ∉ msg) :
    Parser.parse_error (errorBytes code msg)
      = some (match ErrorNumber.from_u16 code with
          | some ErrorNumber.NotDefined => ⟨.NotDefined, some msg⟩
          | some e => ⟨e, none⟩
          | none => ⟨.NotDefined, some invalid_errnum_msg⟩) := by
  have hbytes : errorBytes code msg = opcodeBytes .Error ++ (be16 code ++ (msg ++ 0 :: [])) := by
    simp [errorBytes, List.append_assoc]
  unfold Parser.parse_error
  rw [hbytes, opcode_expect_consume]
  simp only [decide_True]
  rw [number16_be16 code _ hc]
  rcases hcode : ErrorNumber.from_u16 code with _ | e
  · simp [hcode]
  · simp only [hcode]
    cases e <;> simp [swsep_append msg [] hm]

/-- C8 (amended): parsing a well-formed ERROR packet preserves the message
only for code 0 (`NotDefined`); every other known code is returned with its
message dropped (`msg = none`); an unknown code number yields `NotDefined`
with the fixed text "response error with invalid error number", not the
packet's own message. -/
theorem parse_error_message_policy (code : Nat) (msg : List Nat)
    (hc : code < 2 ^ 16) (hm : 0 ∉ msg) :
    Parser.parse_error (errorBytes code msg)
      = some (match ErrorNumber.from_u16 code with
          | some ErrorNumber.NotDefined => ⟨.NotDefined, some msg⟩
          | some e => ⟨e, none⟩
          | none => ⟨.NotDefined, some invalid_errnum_msg⟩) :=
  parse_error_on_errorBytes code msg hc hm

theorem parse_error_message_policy_witness :
    (2 : Nat) < 2 ^ 16 ∧ (0 : Nat) ∉ [109] ∧
    Parser.parse_error (errorBytes 2 [109]) = some ⟨.AccessViolation, none⟩ :=
  ⟨by decide, by decide, parse_error_message_policy 2 [109] (by decide) (by decide)⟩

/-- C3 (amended): `get_file_path` rejects with `ERROR(FileNotFound)` exactly
those requests whose joined path does not start, component-wise, with
`root_dir`; in particular every relative filename — including `..`-escaping
ones — passes the check and is accepted, because `..` components are never
resolved. -/
theorem get_file_path_rejects_exactly_nonprefix_joins (root req : TPath) :
    (req.absolute = false → get_file_path root req = .ok (joinPath root req)) ∧
    (pathStartsWith (joinPath root req) root = false →
      get_file_path root req = .error .FileNotFound) ∧
    (pathStartsWith (joinPath root req) root = true →
      get_file_path root req = .ok (joinPath root req)) := by
  refine ⟨?_, ?_, ?_⟩
  · intro h
    have hj : joinPath root req = ⟨root.absolute, root.components ++ req.components⟩ := by
      simp [joinPath, h]
    have hp : pathStartsWith (joinPath root req) root = true := by
      rw [hj]
      simp [pathStartsWith, isPrefixOf_append_self]
    simp [get_file_path, hp]
  · intro h
    simp [get_file_path, h]
  · intro h
    simp [get_file_path, h]

theorem get_file_path_witness :
    (⟨false, ["a.txt"]⟩ : TPath).absolute = false ∧
    get_file_path ⟨true, ["srv"]⟩ ⟨false, ["a.txt"]⟩
      = .ok (joinPath ⟨true, ["srv"]⟩ ⟨false, ["a.txt"]⟩) :=
  ⟨rfl, (get_file_path_rejects_exactly_nonprefix_joins ⟨true, ["srv"]⟩ ⟨false, ["a.txt"]⟩).1 rfl⟩

/-- C10 (amended): the SEND engine's `ack` is total (returns a state rather
than panicking) exactly when the ring distance to the acknowledged block
either exceeds the window size (the ACK is ignored) or does not exceed the
number of queued frames; when the source was exhausted early and an ACK
acknowledges past the last queued block (distance within the window but
beyond the queue length) the pop loop panics. -/
theorem ack_isSome_iff (s : SendStateMachine) (blk : Nat) :
    (s.ack blk).isSome = true ↔
      (s.windowssize < ring_diff s.acked blk ∨
        ring_diff s.acked blk ≤ s.bufs.length) := by
  unfold SendStateMachine.ack
  by_cases hgt : s.windowssize < ring_diff s.acked blk
  · simp [hgt]
  · rw [if_neg hgt]
    cases hl : s.ackLoop (ring_diff s.acked blk) with
    | none =>
      have hlen := ackLoop_isSome (ring_diff s.acked blk) s
      rw [hl] at hlen
      simp only [Option.isSome_none, Bool.false_eq_true, false_iff] at hlen
      simp [hlen, hgt]
    | some s1 =>
      have hlen := ackLoop_isSome (ring_diff s.acked blk) s
      rw [hl] at hlen
      simp only [Option.isSome_some, true_iff] at hlen
      simp only [hlen, or_true, iff_true]
      split <;> split <;> simp


/-- Helper: the tail of `SendStateMachine::ack` once the pop loop has
succeeded. -/
theorem ack_of_ackLoop_some (s s1 : SendStateMachine) (blk : Nat)
    (hw : ¬ s.windowssize < ring_diff s.acked blk)
    (hl : s.ackLoop (ring_diff s.acked blk) = some s1) :
    s.ack blk =
      (let s2 := if s1.is_reader_end = true ∧ s1.bufs = [] then { s1 with is_end := true } else s1;
       if s2.new_acked = true then some { s2 with timeout := none, retry := RETRY_COUNT }
       else some s2) := by
  unfold SendStateMachine.ack
  rw [if_neg hw, hl]

/-- C4 (amended): a frame is treated as an ACK only if it is exactly 4 bytes
with opcode ACK (anything else leaves the state unchanged); for an ACK with
block number `b` and `d = ring_diff(acked, b)`: if `d > windowsize` the
state is unchanged; otherwise, provided `d` does not exceed the queue
length (beyond it the pop loop panics), exactly `d` frames are popped from
the queue front, `acked` becomes `acked + d (mod 2^16)`, and the resend
timer and retry counter are reset only when `d ≥ 1` or an earlier advance
is still unflushed — a duplicate ACK with `d = 0` and no pending advance
resets neither. -/
theorem ack_handling_characterization (s : SendStateMachine) (blk : Nat)
    (ha : s.acked < 2 ^ 16) (hblk : blk < 2 ^ 16) :
    (∀ f : List Nat, f.length ≠ ACK_LEN ∨ parse_opcode_raw f ≠ some .Ack →
      s.ack_packet f = some s) ∧
    s.ack_packet (ackBytes blk) = s.ack blk ∧
    (s.windowssize < ring_diff s.acked blk → s.ack blk = some s) ∧
    (ring_diff s.acked blk ≤ s.windowssize → ring_diff s.acked blk ≤ s.bufs.length →
      ∃ s', s.ack blk = some s' ∧
        s'.bufs = s.bufs.drop (ring_diff s.acked blk) ∧
        s'.acked = (s.acked + ring_diff s.acked blk) % 2 ^ 16 ∧
        ((ring_diff s.acked blk ≠ 0 ∨ s.new_acked = true) →
          s'.retry = RETRY_COUNT ∧ s'.timeout = none) ∧
        (ring_diff s.acked blk = 0 ∧ s.new_acked = false →
          s'.retry = s.retry ∧ s'.timeout = s.timeout)) ∧
    (ring_diff s.acked blk ≤ s.windowssize → s.bufs.length < ring_diff s.acked blk →
      s.ack blk = none) := by
  refine ⟨?_, ?_, ?_, ?_, ?_⟩
  · intro f hf
    unfold SendStateMachine.ack_packet
    rcases hf with hf | hf
    · rw [if_pos (Or.inl hf)]
    · have he : (Parser.opcode_expect f .Ack).1 = false := by
        unfold Parser.opcode_expect Parser.opcode
        cases hp : parse_opcode_raw f with
        | none => simp
        | some op =>
          simp only [decide_eq_false_iff_not]
          intro heq
          exact hf (by rw [hp, heq])
      rw [if_pos (Or.inr he)]
  · unfold SendStateMachine.ack_packet
    have he : Parser.opcode_expect (ackBytes blk) .Ack = (true, be16 blk) := by
      rw [show ackBytes blk = opcodeBytes .Ack ++ be16 blk from rfl, opcode_expect_consume]
      simp
    have hn : Parser.number16 (be16 blk) = (some blk, []) := by
      have := number16_be16 blk [] hblk
      rwa [List.append_nil] at this
    have hcond : ¬ ((ackBytes blk).length ≠ ACK_LEN ∨ (Parser.opcode_expect (ackBytes blk) .Ack).1 = false) := by
      rw [he]
      simp [ackBytes, be16, opcodeBytes, ACK_LEN]
    rw [if_neg hcond, he, hn]
  · intro h
    unfold SendStateMachine.ack
    rw [if_pos h]
  · intro h1 h2
    have hw : ¬ s.windowssize < ring_diff s.acked blk := by omega
    rw [ack_of_ackLoop_some s _ blk hw (ackLoop_some (ring_diff s.acked blk) s h2 ha)]
    simp only []
    split_ifs
    all_goals refine ⟨_, rfl, ?_, ?_, ?_, ?_⟩
    all_goals simp_all
  · intro h1 h2
    unfold SendStateMachine.ack
    rw [if_neg (by omega)]
    have hnone : s.ackLoop (ring_diff s.acked blk) = none := by
      rcases hl : s.ackLoop (ring_diff s.acked blk) with _ | s1
      · rfl
      · have hs := ackLoop_isSome (ring_diff s.acked blk) s
        rw [hl] at hs
        simp at hs
        omega
    rw [hnone]

/-- C5: for every RECV-engine state and incoming `DATA(blk, payload)` with
`d = ring_diff(acked, blk)`: the frame is rejected with no state change when
`d = 0` or `d > windowsize`; otherwise slot `d − 1` receives the payload,
and if slot `d − 1` is already filled the frame is ignored rather than
overwritten. -/
theorem fill_window_acceptance (s : RecvController) (blk : Nat) (payload : List Nat)
    (_hlen : s.window_buf.length = s.windowssize) (hblk : blk < 2 ^ 16) :
    ((ring_diff s.acked blk = 0 ∨ s.windowssize < ring_diff s.acked blk) →
      s.fill_window_step (dataBytes blk payload) = s) ∧
    (1 ≤ ring_diff s.acked blk → ring_diff s.acked blk ≤ s.windowssize →
      ((s.window_buf.getD (ring_diff s.acked blk - 1) none).isSome = true →
        s.fill_window_step (dataBytes blk payload) = s) ∧
      (s.window_buf.getD (ring_diff s.acked blk - 1) none = none →
        s.fill_window_step (dataBytes blk payload)
          = { s with window_buf := s.window_buf.set (ring_diff s.acked blk - 1) (some payload) })) := by
  have hne : ¬ (dataBytes blk payload = []) := by simp [dataBytes, opcodeBytes, be16]
  have he : Parser.opcode_expect (dataBytes blk payload) Opcode.Data = (true, be16 blk ++ payload) := by
    rw [show dataBytes blk payload = opcodeBytes .Data ++ (be16 blk ++ payload) by
      simp [dataBytes, List.append_assoc]]
    rw [opcode_expect_consume]
    simp
  have hred : s.fill_window_step (dataBytes blk payload)
      = (if ring_diff s.acked blk > s.windowssize ∨ ring_diff s.acked blk = 0 then s
         else if (s.window_buf.getD (ring_diff s.acked blk - 1) none).isSome then s
         else { s with window_buf := s.window_buf.set (ring_diff s.acked blk - 1) (some payload) }) := by
    unfold RecvController.fill_window_step
    rw [if_neg hne, he]
    simp only [Bool.true_eq_false, if_false]
    rw [number16_be16 blk payload hblk]
  constructor
  · intro h
    rw [hred, if_pos (by omega)]
  · intro hd1 hd2
    constructor
    · intro hfull
      rw [hred, if_neg (by omega), if_pos hfull]
    · intro hempty
      rw [hred, if_neg (by omega), if_neg (by rw [hempty]; simp)]

/-- C6 (amended): a request's `blksize` and `windowsize` option values are
adopted exactly as parsed — `blksize` is not clamped into `8‥MAX_BLOCKSIZE`
— and the OACK echoes the adopted (unclamped) values whenever they differ
from the defaults. -/
theorem options_adopted_verbatim (sb sw : List Nat) (n m : Nat)
    (hb : u16_from_str_radix10 sb = some n) (hw : u16_from_str_radix10 sw = some m) :
    parsed_request_adopt ⟨DEFAULT_BLOCKSIZE, DEFAULT_WINDOWSIZE⟩
        [(blksizeStrBytes, sb), (windowStrBytes, sw)] = ⟨n, m⟩ ∧
    (n ≠ DEFAULT_BLOCKSIZE →
      (blksizeStrBytes, natDecBytes n) ∈ handle_extendes_request ⟨n, m⟩) ∧
    (m ≠ DEFAULT_WINDOWSIZE →
      (windowStrBytes, natDecBytes m) ∈ handle_extendes_request ⟨n, m⟩) := by
  have hne : ¬ (windowStrBytes = blksizeStrBytes) := by decide
  refine ⟨?_, ?_, ?_⟩
  · simp [parsed_request_adopt, filter_extended_options, filter_extended_options_loop,
      hb, hw, hne]
  · intro h
    simp [handle_extendes_request, h]
  · intro h
    simp [handle_extendes_request, h]

theorem errorNumber_toNat_lt (e : ErrorNumber) : e.toNat < 2 ^ 16 := by
  cases e <;> decide

theorem unknownMsgBytes_no_zero : (0 : Nat) ∉ unknownMsgBytes := by decide

/-- C9 (amended): parse-after-build is the identity for DATA, ACK, OACK and
RRQ/WRQ-with-options packets (NUL-free strings, distinct option names), and
for ERROR packets exactly in the two shapes the codec can reproduce —
`NotDefined` with a message, or a known non-`NotDefined` code without one;
a known non-`NotDefined` ERROR with a message loses it on the round trip. -/
theorem build_parse_roundtrip (P : Packet) (h : P.wf) :
    parsePacket (buildPacket P) = some P := by
  cases P with
  | data blk payload =>
    have hblk : blk < 2 ^ 16 := h
    have hshape : buildPacket (.data blk payload)
        = opcodeBytes .Data ++ (be16 blk ++ payload) := by
      simp [buildPacket, dataBytes, List.append_assoc]
    unfold parsePacket
    rw [hshape, opcode_consume]
    simp [number16_be16 blk payload hblk]
  | ack blk =>
    have hblk : blk < 2 ^ 16 := h
    have hn : Parser.number16 (be16 blk) = (some blk, []) := by
      have := number16_be16 blk [] hblk
      rwa [List.append_nil] at this
    have hlen : (opcodeBytes Opcode.Ack ++ be16 blk).length = ACK_LEN := by
      simp [opcodeBytes, be16, ACK_LEN]
    unfold parsePacket
    rw [show buildPacket (.ack blk) = opcodeBytes .Ack ++ be16 blk from rfl, opcode_consume]
    simp [hn, hlen]
  | error e msg =>
    cases msg with
    | some m =>
      obtain ⟨he, hm⟩ := h
      subst he
      have hshape : buildPacket (.error .NotDefined (some m)) = errorBytes 0 m := rfl
      have hsplit : errorBytes 0 m = opcodeBytes .Error ++ (be16 0 ++ (m ++ [0])) := by
        simp [errorBytes, List.append_assoc]
      have hpe := parse_error_on_errorBytes 0 m (by decide) hm
      rw [show ErrorNumber.from_u16 0 = some .NotDefined from rfl] at hpe
      unfold parsePacket
      rw [hshape, hsplit, opcode_consume, ← hsplit]
      simp [hpe]
    | none =>
      have he : e ≠ .NotDefined := h
      have hshape : buildPacket (.error e none) = errorBytes e.toNat unknownMsgBytes := rfl
      have hsplit : errorBytes e.toNat unknownMsgBytes
          = opcodeBytes .Error ++ (be16 e.toNat ++ (unknownMsgBytes ++ [0])) := by
        simp [errorBytes, List.append_assoc]
      have hpe := parse_error_on_errorBytes e.toNat unknownMsgBytes
        (errorNumber_toNat_lt e) unknownMsgBytes_no_zero
      rw [from_u16_toNat e] at hpe
      unfold parsePacket
      rw [hshape, hsplit, opcode_consume, ← hsplit]
      cases e <;> simp_all
  | request op fname mode opts =>
    obtain ⟨hop, hfn, hopts, hnodup⟩ := h
    have hshape : buildPacket (.request op fname mode opts)
        = opcodeBytes op ++ (fname ++ 0 :: (mode.toBytes ++
            (0 :: (opts.map fun nv => nv.1 ++ [0] ++ nv.2 ++ [0]).flatten))) := by
      show requestBytes op fname mode opts = _
      unfold requestBytes
      rw [List.append_assoc _ _ [0], leadBlob_shift]
      simp [List.append_assoc]
    have h1 := swsep_append fname
      (mode.toBytes ++ 0 :: (opts.map fun nv => nv.1 ++ [0] ++ nv.2 ++ [0]).flatten) hfn
    have h2 := swsep_append mode.toBytes
      ((opts.map fun nv => nv.1 ++ [0] ++ nv.2 ++ [0]).flatten) (mode_toBytes_no_zero mode)
    have h3 := extended_options_blob opts hopts hnodup
    unfold parsePacket
    rw [hshape, opcode_consume]
    rcases hop with rfl | rfl
    all_goals simp only [h1, h2, h3, mode_from_toBytes]
  | oack opts =>
    obtain ⟨hopts, hnodup⟩ := h
    unfold parsePacket
    rw [show buildPacket (.oack opts)
        = opcodeBytes .Oack ++ (opts.map fun nv => nv.1 ++ [0] ++ nv.2 ++ [0]).flatten from rfl,
      opcode_consume]
    simp only [extended_options_blob opts hopts hnodup]

theorem ack_handling_characterization_witness :
    (0 : Nat) < 2 ^ 16 ∧ (5 : Nat) < 2 ^ 16 ∧
    SendStateMachine.ack ⟨1, 512, [[0, 3, 0, 1]], 0, false, false, false, none, 3, 0⟩ 5
      = some ⟨1, 512, [[0, 3, 0, 1]], 0, false, false, false, none, 3, 0⟩ :=
  ⟨by decide, by decide,
    (ack_handling_characterization ⟨1, 512, [[0, 3, 0, 1]], 0, false, false, false, none, 3, 0⟩ 5
      (by decide) (by decide)).2.2.1 (by decide)⟩

theorem fill_window_acceptance_witness :
    ([none, none] : List (Option (List Nat))).length = 2 ∧ (2 : Nat) < 2 ^ 16 ∧
    RecvController.fill_window_step ⟨2, 512, 0, [none, none]⟩ (dataBytes 2 [7, 8])
      = { (⟨2, 512, 0, [none, none]⟩ : RecvController) with
          window_buf := ([none, none] : List (Option (List Nat))).set 1 (some [7, 8]) } :=
  ⟨rfl, by decide,
    ((fill_window_acceptance ⟨2, 512, 0, [none, none]⟩ 2 [7, 8] rfl (by decide)).2
      (by decide) (by decide)).2 rfl⟩

theorem options_adopted_verbatim_witness :
    u16_from_str_radix10 (strBytes "2000") = some 2000 ∧
    u16_from_str_radix10 (strBytes "4") = some 4 ∧
    parsed_request_adopt ⟨DEFAULT_BLOCKSIZE, DEFAULT_WINDOWSIZE⟩
        [(blksizeStrBytes, strBytes "2000"), (windowStrBytes, strBytes "4")] = ⟨2000, 4⟩ :=
  ⟨by decide, by decide,
    (options_adopted_verbatim (strBytes "2000") (strBytes "4") 2000 4 (by decide) (by decide)).1⟩

theorem build_parse_roundtrip_witness :
    Packet.wf (.data 1 [42]) ∧ parsePacket (buildPacket (.data 1 [42])) = some (.data 1 [42]) :=
  ⟨by decide, build_parse_roundtrip (.data 1 [42]) (by decide)⟩
